import Mathlib


/-! Shallow embedding of the Nimo Nudges session/batching orchestrator and
multi-channel dispatch engine (src/server.js).

The embedding models the stateful classes of the source as Lean structures
plus explicit state-passing functions.  Every network call made by the source
(the Gemini `chat.sendMessage` reasoning call, the Slack `chat.postMessage`
calls, the Recall `send_chat_message` call, the Twilio `messages.create`
calls, the Recall bot DELETE) is represented in two ways:

* its *attempt* is recorded as an `Effect` in an action trace returned
  alongside the new state, in the order the source initiates the calls;
* its *outcome* (network success or failure) is an input to the model, passed
  in through `NetOutcomes` or through an explicit result parameter, because
  the outcome is decided by the external world, not by the code under study.

Fire-and-forget background work in the source (the Slack thread creation
started by `setInterviewer` via `initializeSlackThread`) is modeled
faithfully to the event loop: the request is emitted as an action when the
source initiates it, and the state mutation it performs on completion
(`this.threadTs = response.ts`) is a separate function
(`AIAgent.completeSlackStart`) that the environment applies later, so runs in
which a directive is dispatched before the thread creation has completed are
expressible, exactly as in the source.

Per-channel rich formatting (Slack block kits, the SMS start and end message
templates) is presentation; the actions carry the semantically relevant
payload fields (recipient, thread id, nudge number, reason, message, batch
number, totals).  The SMS coaching-nudge body is modeled in full
(`smsNudgeBody`) because one claim is about identical copies of that body.
The `questionsAsked` set of `AIAgent` is initialized by the source and never
read anywhere, and the `teamsThread` field is never assigned (all TEAMS
branches test `this.teamsThread`, which is always undefined, hence dead); both
are omitted.  -/

/-- One network side effect initiated by the orchestrator, with the outcome
the external world gave it recorded in the `delivered` flag where the source
observes such an outcome. -/
inductive Effect where
  | analyzeCall (batchMessage : String)
  | slackStartReq (channelId : String)
  | slackReply (channelId : String) (threadTs : String) (nudgeNo : Nat)
      (reason : String) (message : String) (batchNumber : Nat) (delivered : Bool)
  | slackEnd (channelId : String) (threadTs : String) (durationMin : Nat)
      (totalNudges : Nat) (delivered : Bool)
  | zoomDM (botId : String) (recipient : String) (message : String) (delivered : Bool)
  | smsStart (toNumber : String) (delivered : Bool)
  | smsNudge (toNumber : String) (body : String) (delivered : Bool)
  | smsEnd (toNumber : String) (durationMin : Nat) (totalNudges : Nat) (delivered : Bool)
  | botDeleteReq (botId : String)
deriving DecidableEq, Repr

/-- Is this action the reasoning call `chat.sendMessage` itself? -/
def Effect.isAnalyzeCall : Effect → Bool
  | .analyzeCall _ => true
  | _ => false

/-- Is this action an end-of-session summary send (Slack thread-end reply or
SMS session-end message)? -/
def Effect.isEndCall : Effect → Bool
  | .slackEnd _ _ _ _ _ => true
  | .smsEnd _ _ _ _ => true
  | _ => false

/-- Is this action the Slack thread-creating parent post? -/
def Effect.isSlackStartReq : Effect → Bool
  | .slackStartReq _ => true
  | _ => false

/-- Erase the externally decided delivery outcome, leaving only the attempt
the orchestrator made. -/
def Effect.stripDelivered : Effect → Effect
  | .slackReply c t n r m b _ => .slackReply c t n r m b true
  | .slackEnd c t d n _ => .slackEnd c t d n true
  | .zoomDM b r m _ => .zoomDM b r m true
  | .smsStart n _ => .smsStart n true
  | .smsNudge n b _ => .smsNudge n b true
  | .smsEnd n d t _ => .smsEnd n d t true
  | a => a

/-- The delivery outcome recorded on an action (true for actions whose
outcome the source never observes). -/
def Effect.deliveredFlag : Effect → Bool
  | .slackReply _ _ _ _ _ _ d => d
  | .slackEnd _ _ _ _ d => d
  | .zoomDM _ _ _ d => d
  | .smsStart _ d => d
  | .smsNudge _ _ d => d
  | .smsEnd _ _ _ d => d
  | _ => true

/-- Outcomes of the per-channel network calls, supplied by the environment:
`slackPost` is the result of the Slack coaching-reply post, `slackEndPost` of
the Slack session-end post, `zoomSend` of the Recall `send_chat_message`
call, and `sms` gives the per-destination result of a Twilio
`messages.create` call. -/
structure NetOutcomes where
  slackPost : Bool
  slackEndPost : Bool
  zoomSend : Bool
  sms : String → Bool

/-- The outcome the environment `o` assigns to a given attempted action. -/
def NetOutcomes.forAction (o : NetOutcomes) : Effect → Bool
  | .slackReply _ _ _ _ _ _ _ => o.slackPost
  | .slackEnd _ _ _ _ _ => o.slackEndPost
  | .zoomDM _ _ _ _ => o.zoomSend
  | .smsStart n _ => o.sms n
  | .smsNudge n _ _ => o.sms n
  | .smsEnd n _ _ _ => o.sms n
  | _ => true

/-- Environment in which every network call succeeds. -/
def allOk : NetOutcomes := ⟨true, true, true, fun _ => true⟩

/-- Process configuration: `INTEGRATION_MODES` (the parsed `INTEGRATION`
environment variable), whether the Twilio client was constructed (`SMS` mode
with credentials present), and `SLACK_CHANNEL_ID`.  The Slack client is
constructed exactly when `"SLACK"` is in the modes, so no separate flag is
needed for it. -/
structure Config where
  modes : List String
  hasTwilio : Bool
  slackChannelId : String
deriving DecidableEq, Repr

/-- The payload assembled in `AIAgent.analyzeBatch` and handed to each
channel adapter (`timestamp`, `reason`, `message`, `batchNumber`,
`messagesAnalyzed`). -/
structure CoachingData where
  timestamp : String
  reason : String
  message : String
  batchNumber : Nat
  messagesAnalyzed : Nat
deriving DecidableEq, Repr

/-- State of the source class `SlackThreadManager`: the configured channel,
the thread handle `threadTs` (null until the parent post succeeds), the
per-adapter nudge counter, and the session start time in milliseconds. -/
structure SlackThreadManager where
  channelId : String
  threadTs : Option String
  nudgeCount : Nat
  sessionStartTime : Nat
deriving DecidableEq, Repr

/-- `SlackThreadManager.sendCoachingReply`: with no `threadTs` the reply is
dropped (logged, early return).  Otherwise the counter is incremented before
the post is awaited; a post failure is caught inside the method and changes
nothing, so the resulting state does not depend on `postOk`. -/
def SlackThreadManager.sendCoachingReply (st : SlackThreadManager)
    (cd : CoachingData) (postOk : Bool) : SlackThreadManager × List Effect :=
  match st.threadTs with
  | none => (st, [])
  | some ts =>
      let st' := { st with nudgeCount := st.nudgeCount + 1 }
      (st', [Effect.slackReply st.channelId ts st'.nudgeCount cd.reason cd.message
               cd.batchNumber postOk])

/-- `SlackThreadManager.endSessionThread`: with no `threadTs` nothing
happens.  Otherwise the summary post is attempted; only on success does the
source reset `threadTs` and `nudgeCount` (the resets follow the awaited
post inside the try block). -/
def SlackThreadManager.endSessionThread (st : SlackThreadManager)
    (nowMs : Nat) (postOk : Bool) : SlackThreadManager × List Effect :=
  match st.threadTs with
  | none => (st, [])
  | some ts =>
      let duration := (nowMs - st.sessionStartTime) / 60000
      let act := Effect.slackEnd st.channelId ts duration st.nudgeCount postOk
      if postOk then ({ st with threadTs := none, nudgeCount := 0 }, [act])
      else (st, [act])

/-- State of the source class `SMSManager`.  The `messagingServiceSid` field
only parameterizes the Twilio wire call and is omitted. -/
structure SMSManager where
  phoneNumbers : List String
  nudgeCount : Nat
  sessionStartTime : Nat
  sessionActive : Bool
deriving DecidableEq, Repr

/-- The SMS coaching-nudge body template of `SMSManager.sendCoachingNudge`,
built once per nudge and sent verbatim to every configured number. -/
def smsNudgeBody (nudgeNo : Nat) (timestamp reason message : String)
    (batchNumber : Nat) : String :=
  "Nimo Nudge #" ++ toString nudgeNo ++ " (" ++ timestamp ++ ")\n\nReason: "
    ++ reason ++ "\n\nCoaching: " ++ message ++ "\n\n---\nBatch #"
    ++ toString batchNumber ++ " | Powered by Nimo"

/-- `SMSManager.startSession`: guarded on the Twilio client and a non-empty
number list; sets `sessionActive` (synchronously, before any await) and
fans the start message out to every number.  `.map` creates every send
promise before `Promise.all` is awaited, so every number is attempted
regardless of individual outcomes. -/
def SMSManager.startSession (hasTwilio : Bool) (st : SMSManager)
    (smsOk : String → Bool) : SMSManager × List Effect :=
  if !hasTwilio || st.phoneNumbers.isEmpty then (st, [])
  else
    ({ st with sessionActive := true },
     st.phoneNumbers.map (fun n => Effect.smsStart n (smsOk n)))

/-- `SMSManager.sendCoachingNudge`: guarded on the Twilio client, a
non-empty number list and an active session; increments the per-adapter
counter before the sends are awaited, builds one body and maps it over all
numbers (every number is attempted: the promises are created eagerly before
`Promise.all`).  A rejection is caught inside the method, so the resulting
state does not depend on the per-number outcomes. -/
def SMSManager.sendCoachingNudge (hasTwilio : Bool) (st : SMSManager)
    (cd : CoachingData) (smsOk : String → Bool) : SMSManager × List Effect :=
  if !hasTwilio || st.phoneNumbers.isEmpty || !st.sessionActive then (st, [])
  else
    let st' := { st with nudgeCount := st.nudgeCount + 1 }
    let body := smsNudgeBody st'.nudgeCount cd.timestamp cd.reason cd.message
        cd.batchNumber
    (st', st.phoneNumbers.map (fun n => Effect.smsNudge n body (smsOk n)))

/-- `SMSManager.endSession`: guarded like the nudge send; fans the summary
(duration, total nudges) out to every number; only when every send succeeds
(so `Promise.all` resolves) does the source reach the statements resetting
`sessionActive` and `nudgeCount`. -/
def SMSManager.endSession (hasTwilio : Bool) (st : SMSManager) (nowMs : Nat)
    (smsOk : String → Bool) : SMSManager × List Effect :=
  if !hasTwilio || st.phoneNumbers.isEmpty || !st.sessionActive then (st, [])
  else
    let duration := (nowMs - st.sessionStartTime) / 60000
    let acts := st.phoneNumbers.map
        (fun n => Effect.smsEnd n duration st.nudgeCount (smsOk n))
    if st.phoneNumbers.all smsOk then
      ({ st with sessionActive := false, nudgeCount := 0 }, acts)
    else (st, acts)

/-- One entry of `AIAgent.conversationHistory`. -/
structure HistEntry where
  role : String
  speaker : String
  text : String
  timestamp : Nat
deriving DecidableEq, Repr

/-- The reasoning-engine response to one `chat.sendMessage` call, as the
orchestrator consumes it: the call threw or returned malformed output
(`err`), returned text with no function call (`noAction`), returned a
function call with a name other than `send_message` (`otherCall`), or
returned a `send_message` function call (`directive`). -/
structure SendMessageArgs where
  participant_id : String
  participant_name : String
  message : String
  reason : String
deriving DecidableEq, Repr

inductive AnalyzeResult where
  | err
  | noAction
  | otherCall
  | directive (args : SendMessageArgs)
deriving DecidableEq, Repr

/-- State of the source class `AIAgent` (one per session). -/
structure AIAgent where
  botId : String
  meetingUrl : String
  phoneNumbers : List String
  conversationHistory : List HistEntry
  interviewerId : Option String
  interviewerName : Option String
  lastCoachingTime : Option Nat
  transcriptBuffer : List String
  batchSize : Nat
  batchCount : Nat
  slackThread : Option SlackThreadManager
  smsManager : Option SMSManager
deriving DecidableEq, Repr

/-- The `AIAgent` constructor: `batchSize` is the constant 6; the Slack
manager exists exactly when `"SLACK"` is a mode (the Slack client exists
under the same condition); the SMS manager exists when `"SMS"` is a mode,
the Twilio client exists, and at least one number was supplied. -/
def mkAgent (cfg : Config) (botId meetingUrl : String)
    (phoneNumbers : List String) (nowMs : Nat) : AIAgent :=
  { botId := botId
    meetingUrl := meetingUrl
    phoneNumbers := phoneNumbers
    conversationHistory := []
    interviewerId := none
    interviewerName := none
    lastCoachingTime := none
    transcriptBuffer := []
    batchSize := 6
    batchCount := 0
    slackThread :=
      if cfg.modes.contains "SLACK" then
        some { channelId := cfg.slackChannelId, threadTs := none,
               nudgeCount := 0, sessionStartTime := 0 }
      else none
    smsManager :=
      if cfg.modes.contains "SMS" && cfg.hasTwilio && !phoneNumbers.isEmpty then
        some { phoneNumbers := phoneNumbers, nudgeCount := 0,
               sessionStartTime := nowMs, sessionActive := false }
      else none }

/-- `AIAgent.setInterviewer`: resolves the host once (guarded on
`interviewerId` being unset).  If Slack is enabled and no thread exists yet,
the parent post is initiated in the background (`initializeSlackThread` is
not awaited): the request action is emitted and `sessionStartTime` is set
synchronously, but `threadTs` is only set when the call completes, by
`AIAgent.completeSlackStart`.  If SMS is enabled, `startSession` runs its
synchronous prefix immediately (its guard and the `sessionActive := true`
assignment precede its first await). -/
def AIAgent.setInterviewer (cfg : Config) (st : AIAgent) (name id : String)
    (nowMs : Nat) (smsOk : String → Bool) : AIAgent × List Effect :=
  match st.interviewerId with
  | some _ => (st, [])
  | none =>
    let st0 := { st with interviewerId := some id, interviewerName := some name }
    let slackPart : AIAgent × List Effect :=
      if cfg.modes.contains "SLACK" then
        match st0.slackThread with
        | some s =>
          if s.threadTs = none then
            ({ st0 with slackThread := some { s with sessionStartTime := nowMs } },
             [Effect.slackStartReq s.channelId])
          else (st0, [])
        | none => (st0, [])
      else (st0, [])
    let st1 := slackPart.1
    let smsPart : AIAgent × List Effect :=
      if cfg.modes.contains "SMS" then
        match st1.smsManager with
        | some m =>
          let r := SMSManager.startSession cfg.hasTwilio m smsOk
          ({ st1 with smsManager := some r.1 }, r.2)
        | none => (st1, [])
      else (st1, [])
    (smsPart.1, slackPart.2 ++ smsPart.2)

/-- Completion of the background Slack thread creation: on network success
the source callback assigns `this.threadTs = response.ts`; on failure the
error is caught and nothing changes. -/
def AIAgent.completeSlackStart (st : AIAgent) (result : Option String) : AIAgent :=
  match st.slackThread, result with
  | some s, some ts => { st with slackThread := some { s with threadTs := some ts } }
  | _, _ => st

/-- The buffered form of one transcript entry, exactly as
`AIAgent.processTranscript` pushes it onto `transcriptBuffer`. -/
def fmtEntry (role speaker text : String) : String :=
  "[" ++ role ++ " - " ++ speaker ++ "]: " ++ text

/-- The dispatch section of `AIAgent.analyzeBatch` for a `send_message`
directive with the host already resolved to `iid`: builds one
`CoachingData`, then fans out to every enabled channel.  Each per-channel
promise carries its own catch, and `sendPrivateChatMessage` returns `false`
instead of throwing, so no channel outcome can abort another channel or the
overall dispatch; `Promise.all` waits for every attempt to settle. -/
def AIAgent.dispatchDirective (cfg : Config) (st : AIAgent) (iid : String)
    (args : SendMessageArgs) (nowStr : String) (o : NetOutcomes) :
    AIAgent × List Effect :=
  let cd : CoachingData :=
    { timestamp := nowStr, reason := args.reason, message := args.message,
      batchNumber := st.batchCount, messagesAnalyzed := 6 }
  let slackPart : AIAgent × List Effect :=
    if cfg.modes.contains "SLACK" then
      match st.slackThread with
      | some s =>
        let r := SlackThreadManager.sendCoachingReply s cd o.slackPost
        ({ st with slackThread := some r.1 }, r.2)
      | none => (st, [])
    else (st, [])
  let st1 := slackPart.1
  let zoomActs : List Effect :=
    if cfg.modes.contains "ZOOM_DM" then
      [Effect.zoomDM st.botId iid args.message o.zoomSend]
    else []
  let smsPart : AIAgent × List Effect :=
    if cfg.modes.contains "SMS" then
      match st1.smsManager with
      | some m =>
        let r := SMSManager.sendCoachingNudge cfg.hasTwilio m cd o.sms
        ({ st1 with smsManager := some r.1 }, r.2)
      | none => (st1, [])
    else (st1, [])
  (smsPart.1, slackPart.2 ++ zoomActs ++ smsPart.2)

/-- `AIAgent.analyzeBatch`: early return on an empty buffer; otherwise
increment `batchCount`, join the buffered entries with newlines, clear the
buffer, and issue the reasoning call.  On a throwing or malformed call the
catch clears the buffer (again) and nothing is dispatched.  On a
`send_message` directive with no resolved host the directive is skipped; with
a resolved host `lastCoachingTime` is set and the dispatch fan-out runs. -/
def AIAgent.analyzeBatch (cfg : Config) (st : AIAgent) (nowStr : String)
    (nowMs : Nat) (ar : AnalyzeResult) (o : NetOutcomes) : AIAgent × List Effect :=
  if st.transcriptBuffer.isEmpty then (st, [])
  else
    let batchMessage := String.intercalate "\n" st.transcriptBuffer
    let st1 := { st with batchCount := st.batchCount + 1, transcriptBuffer := [] }
    match ar with
    | .err => ({ st1 with transcriptBuffer := [] }, [Effect.analyzeCall batchMessage])
    | .noAction => (st1, [Effect.analyzeCall batchMessage])
    | .otherCall => (st1, [Effect.analyzeCall batchMessage])
    | .directive args =>
      match st1.interviewerId with
      | none => (st1, [Effect.analyzeCall batchMessage])
      | some iid =>
        let st2 := { st1 with lastCoachingTime := some nowMs }
        let r := AIAgent.dispatchDirective cfg st2 iid args nowStr o
        (r.1, Effect.analyzeCall batchMessage :: r.2)

/-- `AIAgent.processTranscript`: resolve the host on the first
host-attributed event, append to history and buffer, and analyze exactly
when the buffer length has reached `batchSize`. -/
def AIAgent.processTranscript (cfg : Config) (st : AIAgent)
    (speaker participantId : String) (isHost : Bool) (text : String)
    (nowMs : Nat) (nowStr : String) (ar : AnalyzeResult) (o : NetOutcomes) :
    AIAgent × List Effect :=
  let hostPart : AIAgent × List Effect :=
    if isHost && st.interviewerId.isNone then
      AIAgent.setInterviewer cfg st speaker participantId nowMs o.sms
    else (st, [])
  let st0 := hostPart.1
  let role := if isHost then "SALES REP" else "PROSPECT"
  let st1 := { st0 with
    conversationHistory := st0.conversationHistory
      ++ [{ role := role, speaker := speaker, text := text, timestamp := nowMs }]
    transcriptBuffer := st0.transcriptBuffer ++ [fmtEntry role speaker text] }
  if st1.batchSize ≤ st1.transcriptBuffer.length then
    let r := AIAgent.analyzeBatch cfg st1 nowStr nowMs ar o
    (r.1, hostPart.2 ++ r.2)
  else (st1, hostPart.2)

/-- The end-of-session phase of `AIAgent.flushBuffer`: the end calls, each
gated on that channel having actually started (an open `threadTs` for Slack,
an active session for SMS). -/
def AIAgent.flushEnds (cfg : Config) (st1 : AIAgent) (nowMs : Nat)
    (o : NetOutcomes) : AIAgent × List Effect :=
  let slackPart : AIAgent × List Effect :=
    if cfg.modes.contains "SLACK" then
      match st1.slackThread with
      | some s =>
        if s.threadTs.isSome then
          let r := SlackThreadManager.endSessionThread s nowMs o.slackEndPost
          ({ st1 with slackThread := some r.1 }, r.2)
        else (st1, [])
      | none => (st1, [])
    else (st1, [])
  let st2 := slackPart.1
  let smsPart : AIAgent × List Effect :=
    if cfg.modes.contains "SMS" then
      match st2.smsManager with
      | some m =>
        if m.sessionActive then
          let r := SMSManager.endSession cfg.hasTwilio m nowMs o.sms
          ({ st2 with smsManager := some r.1 }, r.2)
        else (st2, [])
      | none => (st2, [])
    else (st2, [])
  (smsPart.1, slackPart.2 ++ smsPart.2)

/-- `AIAgent.flushBuffer`: one final analyze pass over any partial buffer,
awaited to completion, then the end-of-session phase. -/
def AIAgent.flushBuffer (cfg : Config) (st : AIAgent) (nowStr : String)
    (nowMs : Nat) (ar : AnalyzeResult) (o : NetOutcomes) : AIAgent × List Effect :=
  let flushPart : AIAgent × List Effect :=
    if !st.transcriptBuffer.isEmpty then
      AIAgent.analyzeBatch cfg st nowStr nowMs ar o
    else (st, [])
  let r := AIAgent.flushEnds cfg flushPart.1 nowMs o
  (r.1, flushPart.2 ++ r.2)

/-- One transcript message as stored on `session.transcripts` by the webhook
handler. -/
structure Message where
  speaker : String
  words : String
  isHost : Bool
deriving DecidableEq, Repr

/-- One entry of the process-wide `sessions` map. -/
structure SessionRec where
  botId : String
  meetingUrl : String
  phoneNumbers : List String
  transcripts : List Message
  agent : AIAgent
deriving DecidableEq, Repr

/-- The process-wide `sessions` map, as an association list keyed by bot id
(the external control plane issues fresh bot ids, so keys are distinct). -/
structure ServerState where
  sessions : List (String × SessionRec)
deriving DecidableEq, Repr

def lookupSession (srv : ServerState) (botId : String) : Option SessionRec :=
  (srv.sessions.find? (fun p => p.1 = botId)).map Prod.snd

def updateSession (srv : ServerState) (botId : String) (sess : SessionRec) :
    ServerState :=
  { sessions := srv.sessions.map (fun p => if p.1 = botId then (botId, sess) else p) }

/-- The `/api/start-bot` handler after the Recall bot was created with id
`newBotId`: registers the session with a fresh `AIAgent`. -/
def startBot (cfg : Config) (srv : ServerState) (newBotId meetingUrl : String)
    (phoneNumbers : List String) (nowMs : Nat) : ServerState :=
  { sessions := srv.sessions ++
      [(newBotId,
        { botId := newBotId, meetingUrl := meetingUrl,
          phoneNumbers := phoneNumbers, transcripts := [],
          agent := mkAgent cfg newBotId meetingUrl phoneNumbers nowMs })] }

/-- What the webhook caller receives. -/
inductive HttpResp where
  | unauthorized
  | okAck
deriving DecidableEq, Repr

/-- The `/api/webhook` handler for a final `transcript.data` event.  The
source acknowledges with `200 OK` *before* the deferred processing runs;
then it looks the session up and, when none is found (in particular after a
stop removed it), logs a warning and drops the event, touching no state.
Otherwise the message is appended and, when the participant id is present,
handed to `AIAgent.processTranscript`. -/
def webhookTranscript (cfg : Config) (srv : ServerState) (secretOk : Bool)
    (botId : String) (pname pid : String) (isHost : Bool) (text : String)
    (nowMs : Nat) (nowStr : String) (ar : AnalyzeResult) (o : NetOutcomes) :
    HttpResp × ServerState × List Effect :=
  if !secretOk then (HttpResp.unauthorized, srv, [])
  else
    match lookupSession srv botId with
    | none => (HttpResp.okAck, srv, [])
    | some sess =>
      if text = "" then (HttpResp.okAck, srv, [])
      else
        let sess1 := { sess with
          transcripts := sess.transcripts
            ++ [{ speaker := pname, words := text, isHost := isHost }] }
        if pid = "" then (HttpResp.okAck, updateSession srv botId sess1, [])
        else
          let r := AIAgent.processTranscript cfg sess1.agent pname pid isHost text
              nowMs nowStr ar o
          (HttpResp.okAck, updateSession srv botId { sess1 with agent := r.1 }, r.2)

/-- The `/api/stop-bot/:botId` handler: flush the buffer of the session (if
one is registered), then the Recall bot DELETE call; only if that call does
not throw does the handler reach `sessions.delete(botId)` and respond with
success. -/
def stopBot (cfg : Config) (srv : ServerState) (botId : String) (nowMs : Nat)
    (nowStr : String) (ar : AnalyzeResult) (o : NetOutcomes) (deleteOk : Bool) :
    ServerState × List Effect × Bool :=
  match lookupSession srv botId with
  | some sess =>
    let r := AIAgent.flushBuffer cfg sess.agent nowStr nowMs ar o
    let acts := r.2 ++ [Effect.botDeleteReq botId]
    if deleteOk then
      ({ sessions := srv.sessions.filter (fun p => p.1 ≠ botId) }, acts, true)
    else (updateSession srv botId { sess with agent := r.1 }, acts, false)
  | none =>
    if deleteOk then
      ({ sessions := srv.sessions.filter (fun p => p.1 ≠ botId) },
       [Effect.botDeleteReq botId], true)
    else (srv, [Effect.botDeleteReq botId], false)

/-! Interleaving model of the per-session reasoning calls.

Node runs one JavaScript turn at a time, so the synchronous prefix of a
webhook callback is atomic, but every `await` is a suspension point.  For one
session, the synchronous prefix of `processTranscript` together with the
synchronous prefix of `analyzeBatch` (append to the buffer; if the buffer
reached `batchSize`, increment `batchCount`, join and clear the buffer, and
initiate `chat.sendMessage`) runs atomically; the `sendMessage` network call
then resolves in some later turn.  `ConcState` tracks the buffer, the batch
counter and the number of `sendMessage` calls initiated but not yet
resolved; `ingestTurn` is the atomic ingest turn and `finishTurn` the
resolution of one outstanding call.  Nothing in the source consults the
number of outstanding calls, so `ingestTurn` is not guarded on it. -/

structure ConcState where
  buffer : List String
  batchCount : Nat
  inFlight : Nat
deriving DecidableEq, Repr

/-- The atomic ingest turn for one session (the synchronous prefix of
`processTranscript` plus, when the buffer fills, the synchronous prefix of
`analyzeBatch` up to initiating the reasoning call). -/
def ingestTurn (s : ConcState) (entry : String) : ConcState :=
  let buf := s.buffer ++ [entry]
  if 6 ≤ buf.length then
    { buffer := [], batchCount := s.batchCount + 1, inFlight := s.inFlight + 1 }
  else { s with buffer := buf }

/-- Resolution of one outstanding `chat.sendMessage` call. -/
def finishTurn (s : ConcState) : ConcState :=
  { s with inFlight := s.inFlight - 1 }

/-- One scheduler turn for a session: either a transcript event is ingested,
or an outstanding reasoning call resolves. -/
inductive SessionTurn : ConcState → ConcState → Prop
  | ingest (entry : String) (s : ConcState) : SessionTurn s (ingestTurn s entry)
  | finish (s : ConcState) : 0 < s.inFlight → SessionTurn s (finishTurn s)

/-- Reachability under scheduler turns. -/
def ReachableConc (s t : ConcState) : Prop := Relation.ReflTransGen SessionTurn s t

/-- The session state at agent construction. -/
def concInit : ConcState := { buffer := [], batchCount := 0, inFlight := 0 }

/-- A run consisting of ingest turns only (a schedule in which no in-flight
reasoning call has resolved yet). -/
def runIngests (s : ConcState) (entries : List String) : ConcState :=
  entries.foldl ingestTurn s

theorem reachable_runIngests (s : ConcState) (entries : List String) :
    ReachableConc s (runIngests s entries) := by
  induction entries generalizing s with
  | nil => exact Relation.ReflTransGen.refl
  | cons e es ih =>
      exact Relation.ReflTransGen.head (SessionTurn.ingest e s) (ih (ingestTurn s e))

/-! Theorems.  Helper lemmas first, then one theorem per claim (with its
witness or counterexample where required). -/

theorem isEmpty_false_of_ne_nil {α : Type} {l : List α} (h : l ≠ []) :
    l.isEmpty = false := by
  cases l with
  | nil => exact absurd rfl h
  | cons a t => rfl

/-- C4: when the reasoning call fails, the batch is forfeited: the call is
the only effect (no dispatch on any channel), the buffer is empty afterwards,
and no other agent state changes, so the drained content is never requeued
or retried. -/
theorem reasoning_error_forfeits_batch (cfg : Config) (st : AIAgent)
    (nowStr : String) (nowMs : Nat) (o : NetOutcomes)
    (h : st.transcriptBuffer ≠ []) :
    AIAgent.analyzeBatch cfg st nowStr nowMs AnalyzeResult.err o
      = ({ st with batchCount := st.batchCount + 1, transcriptBuffer := [] },
         [Effect.analyzeCall (String.intercalate "\n" st.transcriptBuffer)]) := by
  simp [AIAgent.analyzeBatch, isEmpty_false_of_ne_nil h]

def cfgZoom : Config := { modes := ["ZOOM_DM"], hasTwilio := false, slackChannelId := "C1" }

def agentBuf1 : AIAgent :=
  { mkAgent cfgZoom "bot1" "https://zoom.us/j/1" [] 0 with transcriptBuffer := ["x"] }

theorem reasoning_error_forfeits_batch_witness :
    agentBuf1.transcriptBuffer ≠ [] ∧
    AIAgent.analyzeBatch cfgZoom agentBuf1 "" 0 AnalyzeResult.err allOk
      = ({ agentBuf1 with batchCount := agentBuf1.batchCount + 1, transcriptBuffer := [] },
         [Effect.analyzeCall (String.intercalate "\n" agentBuf1.transcriptBuffer)]) :=
  ⟨by decide, reasoning_error_forfeits_batch cfgZoom agentBuf1 "" 0 allOk (by decide)⟩

theorem mem_sendCoachingReply {s : SlackThreadManager} {cd : CoachingData} {b : Bool}
    {a : Effect} (h : a ∈ (SlackThreadManager.sendCoachingReply s cd b).2) :
    ∃ ts, s.threadTs = some ts ∧
      a = Effect.slackReply s.channelId ts (s.nudgeCount + 1) cd.reason cd.message
            cd.batchNumber b := by
  unfold SlackThreadManager.sendCoachingReply at h
  split at h
  · simp at h
  · next ts heq =>
      simp at h
      exact ⟨ts, heq, h⟩

theorem mem_sendCoachingNudge {h0 : Bool} {m : SMSManager} {cd : CoachingData}
    {ok : String → Bool} {a : Effect}
    (h : a ∈ (SMSManager.sendCoachingNudge h0 m cd ok).2) :
    ∃ n, n ∈ m.phoneNumbers ∧
      a = Effect.smsNudge n
            (smsNudgeBody (m.nudgeCount + 1) cd.timestamp cd.reason cd.message cd.batchNumber)
            (ok n) := by
  unfold SMSManager.sendCoachingNudge at h
  split at h
  · simp at h
  · simp at h
    obtain ⟨n, hn, rfl⟩ := h
    exact ⟨n, hn, rfl⟩

theorem dispatchDirective_effect_kinds (cfg : Config) (st : AIAgent) (iid : String)
    (args : SendMessageArgs) (nowStr : String) (o : NetOutcomes) :
    ∀ a ∈ (AIAgent.dispatchDirective cfg st iid args nowStr o).2,
      a.isAnalyzeCall = false ∧ a.isEndCall = false ∧ a.isSlackStartReq = false ∧
      ∀ b r m d, a = Effect.zoomDM b r m d → r = iid := by
  intro a ha
  unfold AIAgent.dispatchDirective at ha
  simp only [List.mem_append] at ha
  rcases ha with (ha | ha) | ha
  · revert ha
    split
    · split
      · intro ha
        obtain ⟨ts, hts, rfl⟩ := mem_sendCoachingReply ha
        simp [Effect.isAnalyzeCall, Effect.isEndCall, Effect.isSlackStartReq]
      · intro ha
        simp at ha
    · intro ha
      simp at ha
  · revert ha
    split
    · intro ha
      simp at ha
      subst ha
      refine ⟨rfl, rfl, rfl, ?_⟩
      intro b r m d hEq
      cases hEq
      rfl
    · intro ha
      simp at ha
  · revert ha
    split
    · split
      · intro ha
        obtain ⟨n, hn, rfl⟩ := mem_sendCoachingNudge ha
        simp [Effect.isAnalyzeCall, Effect.isEndCall, Effect.isSlackStartReq]
      · intro ha
        simp at ha
    · intro ha
      simp at ha

theorem dispatchDirective_args_irrel (cfg : Config) (st : AIAgent) (iid : String)
    (args : SendMessageArgs) (pid pn : String) (nowStr : String) (o : NetOutcomes) :
    AIAgent.dispatchDirective cfg st iid
        { args with participant_id := pid, participant_name := pn } nowStr o
      = AIAgent.dispatchDirective cfg st iid args nowStr o := by
  cases args
  rfl

/-- C1: the dispatch of a directive is independent of the target the
reasoning engine proposed (`participant_id` and `participant_name` may be
replaced by anything without changing the result), every Zoom direct message
is addressed to the resolved host id, and with no host resolved nothing is
dispatched on any channel (the reasoning call is the only effect). -/
theorem directive_forced_to_host (cfg : Config) (st : AIAgent) (nowStr : String)
    (nowMs : Nat) (args : SendMessageArgs) (pid pn : String) (o : NetOutcomes) :
    (AIAgent.analyzeBatch cfg st nowStr nowMs
        (AnalyzeResult.directive { args with participant_id := pid, participant_name := pn }) o
      = AIAgent.analyzeBatch cfg st nowStr nowMs (AnalyzeResult.directive args) o)
  ∧ (st.interviewerId = none →
      ((AIAgent.analyzeBatch cfg st nowStr nowMs (AnalyzeResult.directive args) o).2.filter
          (fun a => !a.isAnalyzeCall)) = [])
  ∧ (∀ b r m d,
      Effect.zoomDM b r m d ∈
          (AIAgent.analyzeBatch cfg st nowStr nowMs (AnalyzeResult.directive args) o).2 →
      st.interviewerId = some r) := by
  refine ⟨?_, ?_, ?_⟩
  · unfold AIAgent.analyzeBatch
    split
    · rfl
    · simp only [dispatchDirective_args_irrel]
  · intro h
    unfold AIAgent.analyzeBatch
    split
    · simp
    · simp [h, Effect.isAnalyzeCall]
  · intro b r m d hm
    unfold AIAgent.analyzeBatch at hm
    split at hm
    · simp at hm
    · split at hm
      · simp at hm
      · simp at hm
      · simp at hm
      · next a' heq =>
        cases heq
        dsimp only [] at hm
        split at hm
        · simp at hm
        · next iid hIid =>
          simp only [List.mem_cons] at hm
          rcases hm with hm | hm
          · simp at hm
          · have hr := (dispatchDirective_effect_kinds cfg _ iid args nowStr o _ hm).2.2.2 b r m d rfl
            subst hr
            simpa using hIid

def agentHost : AIAgent :=
  { agentBuf1 with interviewerId := some "host1", interviewerName := some "Ann" }

def argsP9 : SendMessageArgs :=
  { participant_id := "p9", participant_name := "Bob", message := "msg", reason := "why" }

theorem directive_forced_to_host_witness :
    ((AIAgent.analyzeBatch cfgZoom agentBuf1 "" 0 (AnalyzeResult.directive argsP9) allOk).2.filter
        (fun a => !a.isAnalyzeCall) = [])
    ∧ agentHost.interviewerId = some "host1" :=
  ⟨(directive_forced_to_host cfgZoom agentBuf1 "" 0 argsP9 "zzz" "Zed" allOk).2.1 rfl,
   (directive_forced_to_host cfgZoom agentHost "" 0 argsP9 "zzz" "Zed" allOk).2.2
     "bot1" "host1" "msg" true (by decide)⟩

/-- C9: the SMS fan-out builds one body and sends that identical copy to
every configured number; each number carries its own outcome, and the
resulting manager state (counter incremented) is the same whatever the
per-number outcomes are, so failures on some numbers neither abort the other
sends nor fail the fan-out as a whole. -/
theorem sms_fanout_identical_and_partial (m : SMSManager) (cd : CoachingData)
    (ok ok' : String → Bool)
    (hA : m.sessionActive = true) (hN : m.phoneNumbers ≠ []) :
    ((SMSManager.sendCoachingNudge true m cd ok).2
        = m.phoneNumbers.map (fun n => Effect.smsNudge n
            (smsNudgeBody (m.nudgeCount + 1) cd.timestamp cd.reason cd.message cd.batchNumber)
            (ok n)))
  ∧ (SMSManager.sendCoachingNudge true m cd ok).1
        = { m with nudgeCount := m.nudgeCount + 1 }
  ∧ (SMSManager.sendCoachingNudge true m cd ok).1
        = (SMSManager.sendCoachingNudge true m cd ok').1 := by
  have hN' : m.phoneNumbers.isEmpty = false := isEmpty_false_of_ne_nil hN
  unfold SMSManager.sendCoachingNudge
  simp [hA, hN']

def smsTwo : SMSManager :=
  { phoneNumbers := ["+15550001", "+15550002"], nudgeCount := 0,
    sessionStartTime := 0, sessionActive := true }

def cdW : CoachingData :=
  { timestamp := "t", reason := "gap", message := "probe deeper", batchNumber := 1,
    messagesAnalyzed := 6 }

def smsFailFirst : String → Bool := fun n => !(n == "+15550001")

theorem sms_fanout_identical_and_partial_witness :
    ((SMSManager.sendCoachingNudge true smsTwo cdW smsFailFirst).2
        = smsTwo.phoneNumbers.map (fun n => Effect.smsNudge n
            (smsNudgeBody (smsTwo.nudgeCount + 1) cdW.timestamp cdW.reason cdW.message
              cdW.batchNumber)
            (smsFailFirst n)))
  ∧ (SMSManager.sendCoachingNudge true smsTwo cdW smsFailFirst).1
        = { smsTwo with nudgeCount := smsTwo.nudgeCount + 1 }
  ∧ (SMSManager.sendCoachingNudge true smsTwo cdW smsFailFirst).1
        = (SMSManager.sendCoachingNudge true smsTwo cdW (fun _ => true)).1 :=
  sms_fanout_identical_and_partial smsTwo cdW smsFailFirst (fun _ => true) rfl (by decide)

theorem dispatchDirective_preserves (cfg : Config) (st : AIAgent) (iid : String)
    (args : SendMessageArgs) (nowStr : String) (o : NetOutcomes) :
    ((AIAgent.dispatchDirective cfg st iid args nowStr o).1.transcriptBuffer
        = st.transcriptBuffer)
  ∧ ((AIAgent.dispatchDirective cfg st iid args nowStr o).1.batchSize = st.batchSize)
  ∧ ((AIAgent.dispatchDirective cfg st iid args nowStr o).1.batchCount = st.batchCount)
  ∧ ((AIAgent.dispatchDirective cfg st iid args nowStr o).1.slackThread.map
        (fun s => s.threadTs) = st.slackThread.map (fun s => s.threadTs))
  ∧ ((AIAgent.dispatchDirective cfg st iid args nowStr o).1.smsManager.map
        (fun m => (m.sessionActive, m.phoneNumbers))
      = st.smsManager.map (fun m => (m.sessionActive, m.phoneNumbers))) := by
  unfold AIAgent.dispatchDirective SlackThreadManager.sendCoachingReply
    SMSManager.sendCoachingNudge
  rcases hsl : st.slackThread with _ | s
  all_goals rcases hsm : st.smsManager with _ | m
  all_goals simp only [hsl, hsm]
  all_goals repeat' split
  all_goals simp_all

theorem setInterviewer_preserves (cfg : Config) (st : AIAgent) (name id : String)
    (nowMs : Nat) (smsOk : String → Bool) :
    ((AIAgent.setInterviewer cfg st name id nowMs smsOk).1.transcriptBuffer
        = st.transcriptBuffer)
  ∧ ((AIAgent.setInterviewer cfg st name id nowMs smsOk).1.batchSize = st.batchSize)
  ∧ (((AIAgent.setInterviewer cfg st name id nowMs smsOk).2.filter
        (fun a => a.isAnalyzeCall)) = []) := by
  unfold AIAgent.setInterviewer SMSManager.startSession
  rcases hI : st.interviewerId with _ | iid
  all_goals rcases hsl : st.slackThread with _ | s
  all_goals rcases hsm : st.smsManager with _ | m
  all_goals simp only [hI, hsl, hsm]
  all_goals repeat' split
  all_goals simp_all [Effect.isAnalyzeCall, List.filter_eq_nil_iff]

theorem analyzeBatch_shape (cfg : Config) (st : AIAgent) (nowStr : String) (nowMs : Nat)
    (ar : AnalyzeResult) (o : NetOutcomes) (h : st.transcriptBuffer ≠ []) :
    ((AIAgent.analyzeBatch cfg st nowStr nowMs ar o).1.transcriptBuffer = [])
  ∧ ((AIAgent.analyzeBatch cfg st nowStr nowMs ar o).1.batchSize = st.batchSize)
  ∧ ((AIAgent.analyzeBatch cfg st nowStr nowMs ar o).1.slackThread.map
        (fun s => s.threadTs) = st.slackThread.map (fun s => s.threadTs))
  ∧ ((AIAgent.analyzeBatch cfg st nowStr nowMs ar o).1.smsManager.map
        (fun m => (m.sessionActive, m.phoneNumbers))
      = st.smsManager.map (fun m => (m.sessionActive, m.phoneNumbers)))
  ∧ ∃ rest, (AIAgent.analyzeBatch cfg st nowStr nowMs ar o).2
        = Effect.analyzeCall (String.intercalate "\n" st.transcriptBuffer) :: rest
      ∧ rest.filter (fun a => a.isAnalyzeCall) = []
      ∧ rest.filter (fun a => a.isEndCall) = []
      ∧ rest.filter (fun a => a.isSlackStartReq) = [] := by
  have hne : st.transcriptBuffer.isEmpty = false := isEmpty_false_of_ne_nil h
  unfold AIAgent.analyzeBatch
  cases ar with
  | err => simp [hne, Effect.isAnalyzeCall]
  | noAction => simp [hne, Effect.isAnalyzeCall]
  | otherCall => simp [hne, Effect.isAnalyzeCall]
  | directive args =>
      simp only [hne, Bool.false_eq_true, if_false]
      rcases hI : st.interviewerId with _ | iid
      · simp [hI]
      · simp only [hI]
        have hp := dispatchDirective_preserves cfg
          { st with
              interviewerId := some iid
              batchCount := st.batchCount + 1
              transcriptBuffer := []
              lastCoachingTime := some nowMs } iid args nowStr o
        have hk := dispatchDirective_effect_kinds cfg
          { st with
              interviewerId := some iid
              batchCount := st.batchCount + 1
              transcriptBuffer := []
              lastCoachingTime := some nowMs } iid args nowStr o
        refine ⟨hp.1.trans rfl, hp.2.1.trans rfl, hp.2.2.2.1.trans rfl,
          hp.2.2.2.2.trans rfl, _, rfl, ?_, ?_, ?_⟩
        · exact List.filter_eq_nil_iff.mpr (fun a ha => by simp [(hk a ha).1])
        · exact List.filter_eq_nil_iff.mpr (fun a ha => by simp [(hk a ha).2.1])
        · exact List.filter_eq_nil_iff.mpr (fun a ha => by simp [(hk a ha).2.2.1])

/-- The tail of `AIAgent.processTranscript` after host resolution: `hp` is
the pair produced by the (possibly skipped) `setInterviewer` call. -/
def processTail (cfg : Config) (hp : AIAgent × List Effect)
    (role speaker text : String) (nowMs : Nat) (nowStr : String)
    (ar : AnalyzeResult) (o : NetOutcomes) : AIAgent × List Effect :=
  let st1 := { hp.1 with
    conversationHistory := hp.1.conversationHistory
      ++ [{ role := role, speaker := speaker, text := text, timestamp := nowMs }]
    transcriptBuffer := hp.1.transcriptBuffer ++ [fmtEntry role speaker text] }
  if st1.batchSize ≤ st1.transcriptBuffer.length then
    let r := AIAgent.analyzeBatch cfg st1 nowStr nowMs ar o
    (r.1, hp.2 ++ r.2)
  else (st1, hp.2)

theorem processTranscript_eq_tail (cfg : Config) (st : AIAgent)
    (speaker pid : String) (isHost : Bool) (text : String) (nowMs : Nat)
    (nowStr : String) (ar : AnalyzeResult) (o : NetOutcomes) :
    AIAgent.processTranscript cfg st speaker pid isHost text nowMs nowStr ar o
      = processTail cfg
          (if isHost && st.interviewerId.isNone then
            AIAgent.setInterviewer cfg st speaker pid nowMs o.sms else (st, []))
          (if isHost then "SALES REP" else "PROSPECT") speaker text nowMs nowStr ar o := by
  rfl

theorem processTail_shape (cfg : Config) (hp : AIAgent × List Effect)
    (role speaker text : String) (nowMs : Nat) (nowStr : String)
    (ar : AnalyzeResult) (o : NetOutcomes) (st : AIAgent)
    (h1 : hp.1.transcriptBuffer = st.transcriptBuffer)
    (h2 : hp.1.batchSize = st.batchSize)
    (h3 : hp.2.filter (fun a => a.isAnalyzeCall) = [])
    (hsz : st.batchSize = 6) (hlt : st.transcriptBuffer.length < 6) :
    ((processTail cfg hp role speaker text nowMs nowStr ar o).1.batchSize = 6
      ∧ (processTail cfg hp role speaker text nowMs nowStr ar o).1.transcriptBuffer.length < 6)
  ∧ (((processTail cfg hp role speaker text nowMs nowStr ar o).2.filter
        (fun a => a.isAnalyzeCall)).length
      = if st.transcriptBuffer.length + 1 = 6 then 1 else 0)
  ∧ (st.transcriptBuffer.length + 1 = 6 →
      Effect.analyzeCall (String.intercalate "\n" (st.transcriptBuffer
          ++ [fmtEntry role speaker text])) ∈
        (processTail cfg hp role speaker text nowMs nowStr ar o).2
      ∧ (processTail cfg hp role speaker text nowMs nowStr ar o).1.transcriptBuffer = [])
  ∧ (st.transcriptBuffer.length + 1 < 6 →
      (processTail cfg hp role speaker text nowMs nowStr ar o).1.transcriptBuffer
        = st.transcriptBuffer ++ [fmtEntry role speaker text]) := by
  unfold processTail
  simp only []
  split
  · next hcond =>
      have hne : hp.1.transcriptBuffer ++ [fmtEntry role speaker text] ≠ [] := by
        simp
      obtain ⟨ha, hb, hsl, hsm, rest, htr, hr1, hr2, hr3⟩ :=
        analyzeBatch_shape cfg { hp.1 with
            conversationHistory := hp.1.conversationHistory
              ++ [{ role := role, speaker := speaker, text := text, timestamp := nowMs }]
            transcriptBuffer := hp.1.transcriptBuffer ++ [fmtEntry role speaker text] }
          nowStr nowMs ar o hne
      have hfull : st.transcriptBuffer.length + 1 = 6 := by
        simp only [List.length_append, List.length_cons, List.length_nil] at hcond
        rw [h1, h2] at hcond
        omega
      refine ⟨⟨?_, ?_⟩, ?_, fun _ => ⟨?_, ?_⟩, fun hc => absurd hfull (by omega)⟩
      · exact hb.trans (h2.trans hsz)
      · rw [ha]; simp
      · rw [if_pos hfull, List.filter_append, h3, List.nil_append, htr]
        simp [Effect.isAnalyzeCall]
        intro a ha2
        have hfa := List.filter_eq_nil_iff.mp hr1 a ha2
        simpa [Effect.isAnalyzeCall] using hfa
      · rw [htr]
        have hmsg : String.intercalate "\n" (st.transcriptBuffer ++ [fmtEntry role speaker text])
            = String.intercalate "\n" (hp.1.transcriptBuffer ++ [fmtEntry role speaker text]) := by
          rw [h1]
        rw [hmsg]
        exact List.mem_append_right _ (List.mem_cons_self _ _)
      · exact ha
  · next hcond =>
      have hnotfull : ¬ (st.transcriptBuffer.length + 1 = 6) := by
        intro hfull
        apply hcond
        simp only [List.length_append, List.length_cons, List.length_nil]
        rw [h1, h2, hsz]
        omega
      refine ⟨⟨?_, ?_⟩, ?_, fun hc => absurd hc hnotfull, fun _ => ?_⟩
      · exact h2.trans hsz
      · simp only [List.length_append, List.length_cons, List.length_nil]
        rw [h1]
        omega
      · rw [if_neg hnotfull, h3]
        rfl
      · simp only []
        rw [h1]

/-- C2: one ingest step of the batcher, under the invariant that the buffer
holds fewer than the window size W = 6 events (true initially and preserved):
a reasoning call is issued exactly when this event makes the count since the
last emission reach 6; the emitted batch is the buffered events plus this
one, joined in ingestion order, and the buffer is reset to empty; with fewer
than 6 events the buffer grows by this event in order and no reasoning call
is issued, so a partial buffer is never submitted by ingestion. -/
theorem batch_emitted_iff_window_full (cfg : Config) (st : AIAgent)
    (speaker pid : String) (isHost : Bool) (text : String) (nowMs : Nat)
    (nowStr : String) (ar : AnalyzeResult) (o : NetOutcomes)
    (hsz : st.batchSize = 6) (hlt : st.transcriptBuffer.length < 6) :
    ((AIAgent.processTranscript cfg st speaker pid isHost text nowMs nowStr ar o).1.batchSize
        = 6
      ∧ (AIAgent.processTranscript cfg st speaker pid isHost text nowMs nowStr
          ar o).1.transcriptBuffer.length < 6)
  ∧ (((AIAgent.processTranscript cfg st speaker pid isHost text nowMs nowStr ar o).2.filter
        (fun a => a.isAnalyzeCall)).length
      = if st.transcriptBuffer.length + 1 = 6 then 1 else 0)
  ∧ (st.transcriptBuffer.length + 1 = 6 →
      Effect.analyzeCall (String.intercalate "\n" (st.transcriptBuffer
          ++ [fmtEntry (if isHost then "SALES REP" else "PROSPECT") speaker text])) ∈
        (AIAgent.processTranscript cfg st speaker pid isHost text nowMs nowStr ar o).2
      ∧ (AIAgent.processTranscript cfg st speaker pid isHost text nowMs nowStr
          ar o).1.transcriptBuffer = [])
  ∧ (st.transcriptBuffer.length + 1 < 6 →
      (AIAgent.processTranscript cfg st speaker pid isHost text nowMs nowStr
          ar o).1.transcriptBuffer
        = st.transcriptBuffer
          ++ [fmtEntry (if isHost then "SALES REP" else "PROSPECT") speaker text]) := by
  have hsp := setInterviewer_preserves cfg st speaker pid nowMs o.sms
  rw [processTranscript_eq_tail]
  refine processTail_shape cfg _ _ speaker text nowMs nowStr ar o st ?_ ?_ ?_ hsz hlt
  · split
    · exact hsp.1
    · rfl
  · split
    · exact hsp.2.1
    · rfl
  · split
    · exact hsp.2.2
    · rfl

def agentBuf5 : AIAgent :=
  { mkAgent cfgZoom "bot1" "https://zoom.us/j/1" [] 0 with
      transcriptBuffer := ["a", "b", "c", "d", "e"]
      interviewerId := some "host1" }

theorem batch_emitted_iff_window_full_witness :
    agentBuf5.batchSize = 6 ∧ agentBuf5.transcriptBuffer.length < 6
  ∧ (((AIAgent.processTranscript cfgZoom agentBuf5 "Ann" "p1" true "hi" 0 ""
        AnalyzeResult.noAction allOk).2.filter (fun a => a.isAnalyzeCall)).length
      = if agentBuf5.transcriptBuffer.length + 1 = 6 then 1 else 0)
  ∧ (AIAgent.processTranscript cfgZoom agentBuf5 "Ann" "p1" true "hi" 0 ""
        AnalyzeResult.noAction allOk).1.transcriptBuffer = [] :=
  ⟨rfl, by decide,
   (batch_emitted_iff_window_full cfgZoom agentBuf5 "Ann" "p1" true "hi" 0 ""
      AnalyzeResult.noAction allOk rfl (by decide)).2.1,
   ((batch_emitted_iff_window_full cfgZoom agentBuf5 "Ann" "p1" true "hi" 0 ""
      AnalyzeResult.noAction allOk rfl (by decide)).2.2.1 (by decide)).2⟩

theorem sendCoachingReply_fst_eq (s : SlackThreadManager) (cd : CoachingData) (b : Bool) :
    (SlackThreadManager.sendCoachingReply s cd b).1
      = (match s.threadTs with
         | none => s
         | some _ => { s with nudgeCount := s.nudgeCount + 1 }) := by
  unfold SlackThreadManager.sendCoachingReply
  split <;> simp_all

theorem sendCoachingReply_strip_eq (s : SlackThreadManager) (cd : CoachingData) (b : Bool) :
    (SlackThreadManager.sendCoachingReply s cd b).2.map Effect.stripDelivered
      = (match s.threadTs with
         | none => []
         | some ts => [Effect.slackReply s.channelId ts (s.nudgeCount + 1) cd.reason
             cd.message cd.batchNumber true]) := by
  unfold SlackThreadManager.sendCoachingReply
  split <;> simp_all [Effect.stripDelivered]

theorem sendCoachingNudge_fst_eq (h0 : Bool) (m : SMSManager) (cd : CoachingData)
    (ok : String → Bool) :
    (SMSManager.sendCoachingNudge h0 m cd ok).1
      = (if !h0 || m.phoneNumbers.isEmpty || !m.sessionActive then m
         else { m with nudgeCount := m.nudgeCount + 1 }) := by
  unfold SMSManager.sendCoachingNudge
  split <;> simp_all

theorem sendCoachingNudge_strip_eq (h0 : Bool) (m : SMSManager) (cd : CoachingData)
    (ok : String → Bool) :
    (SMSManager.sendCoachingNudge h0 m cd ok).2.map Effect.stripDelivered
      = (if !h0 || m.phoneNumbers.isEmpty || !m.sessionActive then []
         else m.phoneNumbers.map (fun n => Effect.smsNudge n
             (smsNudgeBody (m.nudgeCount + 1) cd.timestamp cd.reason cd.message cd.batchNumber)
             true)) := by
  unfold SMSManager.sendCoachingNudge
  split <;> simp_all [Effect.stripDelivered, List.map_map, Function.comp]

theorem dispatchDirective_fst_outcomes (cfg : Config) (st : AIAgent) (iid : String)
    (args : SendMessageArgs) (nowStr : String) (o o' : NetOutcomes) :
    (AIAgent.dispatchDirective cfg st iid args nowStr o).1
      = (AIAgent.dispatchDirective cfg st iid args nowStr o').1 := by
  unfold AIAgent.dispatchDirective
  rcases hsl : st.slackThread with _ | s
  all_goals rcases hsm : st.smsManager with _ | m
  all_goals simp only [hsl, hsm, sendCoachingReply_fst_eq, sendCoachingNudge_fst_eq]
  all_goals repeat' split
  all_goals simp_all

theorem dispatchDirective_strip_outcomes (cfg : Config) (st : AIAgent) (iid : String)
    (args : SendMessageArgs) (nowStr : String) (o o' : NetOutcomes) :
    (AIAgent.dispatchDirective cfg st iid args nowStr o).2.map Effect.stripDelivered
      = (AIAgent.dispatchDirective cfg st iid args nowStr o').2.map Effect.stripDelivered := by
  unfold AIAgent.dispatchDirective
  rcases hsl : st.slackThread with _ | s
  all_goals rcases hsm : st.smsManager with _ | m
  all_goals simp only [hsl, hsm, List.map_append, sendCoachingReply_fst_eq,
    sendCoachingReply_strip_eq, sendCoachingNudge_strip_eq]
  all_goals repeat' split
  all_goals simp_all [Effect.stripDelivered, sendCoachingReply_strip_eq,
    sendCoachingNudge_strip_eq]

theorem dispatchDirective_flags (cfg : Config) (st : AIAgent) (iid : String)
    (args : SendMessageArgs) (nowStr : String) (o : NetOutcomes) :
    ∀ a ∈ (AIAgent.dispatchDirective cfg st iid args nowStr o).2,
      a.deliveredFlag = o.forAction a := by
  intro a ha
  unfold AIAgent.dispatchDirective at ha
  simp only [List.mem_append] at ha
  rcases ha with (ha | ha) | ha
  · revert ha
    split
    · split
      · intro ha
        obtain ⟨ts, hts, rfl⟩ := mem_sendCoachingReply ha
        simp [Effect.deliveredFlag, NetOutcomes.forAction]
      · intro ha
        simp at ha
    · intro ha
      simp at ha
  · revert ha
    split
    · intro ha
      simp at ha
      subst ha
      simp [Effect.deliveredFlag, NetOutcomes.forAction]
    · intro ha
      simp at ha
  · revert ha
    split
    · split
      · intro ha
        obtain ⟨n, hn, rfl⟩ := mem_sendCoachingNudge ha
        simp [Effect.deliveredFlag, NetOutcomes.forAction]
      · intro ha
        simp at ha
    · intro ha
      simp at ha

/-- C5: per-channel failures are isolated.  The agent state after a dispatch
does not depend on any channel outcome (no overall failure, no rollback);
the attempted sends are the same whatever the outcomes (each enabled channel
is attempted and waited on regardless of the others); and each attempted
send carries exactly its own channel outcome, so when one channel fails on
every call the other channels still complete their deliveries. -/
theorem channel_failure_isolated (cfg : Config) (st : AIAgent) (nowStr : String)
    (nowMs : Nat) (ar : AnalyzeResult) (o o' : NetOutcomes) :
    ((AIAgent.analyzeBatch cfg st nowStr nowMs ar o).1
        = (AIAgent.analyzeBatch cfg st nowStr nowMs ar o').1)
  ∧ ((AIAgent.analyzeBatch cfg st nowStr nowMs ar o).2.map Effect.stripDelivered
        = (AIAgent.analyzeBatch cfg st nowStr nowMs ar o').2.map Effect.stripDelivered)
  ∧ (∀ a ∈ (AIAgent.analyzeBatch cfg st nowStr nowMs ar o).2,
        a.deliveredFlag = o.forAction a) := by
  unfold AIAgent.analyzeBatch
  by_cases he : st.transcriptBuffer.isEmpty = true
  · simp [he]
  · simp only [if_neg he]
    cases ar with
    | err => simp [Effect.deliveredFlag, NetOutcomes.forAction]
    | noAction => simp [Effect.deliveredFlag, NetOutcomes.forAction]
    | otherCall => simp [Effect.deliveredFlag, NetOutcomes.forAction]
    | directive args =>
        rcases hI : st.interviewerId with _ | iid
        · simp [hI, Effect.deliveredFlag, NetOutcomes.forAction]
        · simp only [hI]
          refine ⟨?_, ?_, ?_⟩
          · exact dispatchDirective_fst_outcomes cfg _ iid args nowStr o o'
          · simp only [List.map_cons]
            rw [dispatchDirective_strip_outcomes cfg _ iid args nowStr o o']
          · intro a ha
            simp only [List.mem_cons] at ha
            rcases ha with rfl | ha
            · simp [Effect.deliveredFlag, NetOutcomes.forAction]
            · exact dispatchDirective_flags cfg _ iid args nowStr o a ha

def cfgAll : Config :=
  { modes := ["SLACK", "ZOOM_DM", "SMS"], hasTwilio := true, slackChannelId := "CH" }

def slackLive : SlackThreadManager :=
  { channelId := "CH", threadTs := some "111.22", nudgeCount := 0, sessionStartTime := 0 }

def smsOne : SMSManager :=
  { phoneNumbers := ["+15550001"], nudgeCount := 0, sessionStartTime := 0,
    sessionActive := true }

def agentAll : AIAgent :=
  { mkAgent cfgAll "bot9" "https://zoom.us/j/9" ["+15550001"] 0 with
      interviewerId := some "host1"
      interviewerName := some "Ann"
      transcriptBuffer := ["x"]
      slackThread := some slackLive
      smsManager := some smsOne }

def slackFails : NetOutcomes := ⟨false, true, true, fun _ => true⟩

theorem channel_failure_isolated_witness :
    ((AIAgent.analyzeBatch cfgAll agentAll "" 0 (AnalyzeResult.directive argsP9) slackFails).1
        = (AIAgent.analyzeBatch cfgAll agentAll "" 0 (AnalyzeResult.directive argsP9) allOk).1)
  ∧ (Effect.zoomDM "bot9" "host1" "msg" true).deliveredFlag
        = slackFails.forAction (Effect.zoomDM "bot9" "host1" "msg" true) :=
  ⟨(channel_failure_isolated cfgAll agentAll "" 0 (AnalyzeResult.directive argsP9)
      slackFails allOk).1,
   (channel_failure_isolated cfgAll agentAll "" 0 (AnalyzeResult.directive argsP9)
      slackFails allOk).2.2 (Effect.zoomDM "bot9" "host1" "msg" true) (by decide)⟩

theorem mem_endSessionThread {s : SlackThreadManager} {nowMs : Nat} {b : Bool} {a : Effect}
    (h : a ∈ (SlackThreadManager.endSessionThread s nowMs b).2) :
    ∃ ts, s.threadTs = some ts
      ∧ a = Effect.slackEnd s.channelId ts ((nowMs - s.sessionStartTime) / 60000)
          s.nudgeCount b := by
  unfold SlackThreadManager.endSessionThread at h
  split at h
  · simp at h
  · next ts heq =>
      split at h
      all_goals simp at h
      all_goals exact ⟨ts, heq, h⟩

theorem endSessionThread_mem (s : SlackThreadManager) (nowMs : Nat) (b : Bool) (ts : String)
    (h : s.threadTs = some ts) :
    Effect.slackEnd s.channelId ts ((nowMs - s.sessionStartTime) / 60000) s.nudgeCount b
      ∈ (SlackThreadManager.endSessionThread s nowMs b).2 := by
  unfold SlackThreadManager.endSessionThread
  simp only [h]
  split <;> simp

theorem mem_endSession {h0 : Bool} {m : SMSManager} {nowMs : Nat} {ok : String → Bool}
    {a : Effect} (h : a ∈ (SMSManager.endSession h0 m nowMs ok).2) :
    ∃ n, n ∈ m.phoneNumbers
      ∧ a = Effect.smsEnd n ((nowMs - m.sessionStartTime) / 60000) m.nudgeCount (ok n) := by
  unfold SMSManager.endSession at h
  split at h
  · simp at h
  · split at h
    all_goals simp at h
    all_goals obtain ⟨n, hn, rfl⟩ := h
    all_goals exact ⟨n, hn, rfl⟩

theorem endSession_mem (h0 : Bool) (m : SMSManager) (nowMs : Nat) (ok : String → Bool)
    (n : String) (hn : n ∈ m.phoneNumbers) (h0t : h0 = true)
    (hA : m.sessionActive = true) :
    Effect.smsEnd n ((nowMs - m.sessionStartTime) / 60000) m.nudgeCount (ok n)
      ∈ (SMSManager.endSession h0 m nowMs ok).2 := by
  have hne : m.phoneNumbers.isEmpty = false :=
    isEmpty_false_of_ne_nil (List.ne_nil_of_mem hn)
  unfold SMSManager.endSession
  simp only [h0t, hA, hne, Bool.not_true, Bool.false_or, Bool.or_false,
    Bool.false_eq_true, if_false]
  split
  all_goals
    exact List.mem_map_of_mem
      (fun n => Effect.smsEnd n ((nowMs - m.sessionStartTime) / 60000) m.nudgeCount (ok n)) hn

theorem endSessionThread_trace (s : SlackThreadManager) (nowMs : Nat) (b : Bool) :
    (SlackThreadManager.endSessionThread s nowMs b).2
      = match s.threadTs with
        | none => []
        | some ts => [Effect.slackEnd s.channelId ts ((nowMs - s.sessionStartTime) / 60000)
            s.nudgeCount b] := by
  unfold SlackThreadManager.endSessionThread
  repeat' split
  all_goals simp_all

theorem endSession_trace (h0 : Bool) (m : SMSManager) (nowMs : Nat) (ok : String → Bool) :
    (SMSManager.endSession h0 m nowMs ok).2
      = if !h0 || m.phoneNumbers.isEmpty || !m.sessionActive then []
        else m.phoneNumbers.map (fun n => Effect.smsEnd n
            ((nowMs - m.sessionStartTime) / 60000) m.nudgeCount (ok n)) := by
  unfold SMSManager.endSession
  repeat' split
  all_goals simp_all

set_option maxHeartbeats 1000000 in
theorem flushEnds_spec (cfg : Config) (st1 : AIAgent) (nowMs : Nat) (o : NetOutcomes) :
    ((AIAgent.flushEnds cfg st1 nowMs o).2.filter (fun a => a.isAnalyzeCall) = [])
  ∧ ((∃ c ts d n dv, Effect.slackEnd c ts d n dv ∈ (AIAgent.flushEnds cfg st1 nowMs o).2)
       ↔ (cfg.modes.contains "SLACK" = true
          ∧ ∃ s, st1.slackThread = some s ∧ s.threadTs.isSome = true))
  ∧ ((∃ n d tn dv, Effect.smsEnd n d tn dv ∈ (AIAgent.flushEnds cfg st1 nowMs o).2)
       ↔ (cfg.modes.contains "SMS" = true ∧ cfg.hasTwilio = true
          ∧ ∃ m, st1.smsManager = some m ∧ m.sessionActive = true
             ∧ m.phoneNumbers ≠ [])) := by
  unfold AIAgent.flushEnds
  rcases hsl : st1.slackThread with _ | s
  all_goals rcases hsm : st1.smsManager with _ | m
  all_goals simp only [hsl, hsm, endSessionThread_trace, endSession_trace]
  all_goals try rcases hts : s.threadTs with _ | ts
  all_goals try simp only [hts]
  all_goals repeat' split
  all_goals simp_all [Effect.isAnalyzeCall, List.filter_eq_nil_iff, List.mem_append,
    List.mem_map, List.isEmpty_iff, List.isEmpty_eq_true]
  all_goals try
    (rename_i hGuard
     intro hTw
     rcases hGuard with hg | hg
     · exact absurd hTw (by simp [hg])
     · exact hg)
  all_goals
    (rename_i hGuard
     obtain ⟨a, ha⟩ := List.exists_mem_of_ne_nil _ hGuard.2
     by_cases hoa : o.sms a = true
     · exact ⟨a, _, _, Or.inr ⟨a, ha, rfl, rfl, rfl, hoa⟩⟩
     · exact ⟨a, _, _, Or.inl ⟨a, ha, rfl, rfl, rfl, by simpa using hoa⟩⟩)

theorem slackGate_of_map_eq {a b : Option SlackThreadManager}
    (h : a.map (fun s => s.threadTs) = b.map (fun s => s.threadTs)) :
    (∃ s, a = some s ∧ s.threadTs.isSome = true)
      ↔ (∃ s, b = some s ∧ s.threadTs.isSome = true) := by
  cases a <;> cases b <;> simp_all

theorem smsGate_of_map_eq {a b : Option SMSManager}
    (h : a.map (fun m => (m.sessionActive, m.phoneNumbers))
        = b.map (fun m => (m.sessionActive, m.phoneNumbers))) :
    (∃ m, a = some m ∧ m.sessionActive = true ∧ m.phoneNumbers ≠ [])
      ↔ (∃ m, b = some m ∧ m.sessionActive = true ∧ m.phoneNumbers ≠ []) := by
  cases a <;> cases b <;> simp_all

/-- C6: stopping a session first runs the flush, then the end calls: the
trace of `flushBuffer` splits into a flush part holding exactly one
reasoning call when the buffer was non-empty (none when it was empty) and no
end call, followed by an end part holding no reasoning call; the end part
contains a Slack thread-end call exactly when Slack is enabled and a thread
handle exists, and an SMS session-end send exactly when SMS is enabled with
a Twilio client, an active SMS session and a non-empty number list. -/
theorem flush_before_end_calls (cfg : Config) (st : AIAgent) (nowStr : String)
    (nowMs : Nat) (ar : AnalyzeResult) (o : NetOutcomes) :
    ∃ t1 t2,
      (AIAgent.flushBuffer cfg st nowStr nowMs ar o).2 = t1 ++ t2
      ∧ (t1.filter (fun a => a.isAnalyzeCall)).length
          = (if st.transcriptBuffer.isEmpty then 0 else 1)
      ∧ t1.filter (fun a => a.isEndCall) = []
      ∧ t2.filter (fun a => a.isAnalyzeCall) = []
      ∧ ((∃ c ts d n dv, Effect.slackEnd c ts d n dv ∈ t2)
           ↔ (cfg.modes.contains "SLACK" = true
              ∧ ∃ s, st.slackThread = some s ∧ s.threadTs.isSome = true))
      ∧ ((∃ n d tn dv, Effect.smsEnd n d tn dv ∈ t2)
           ↔ (cfg.modes.contains "SMS" = true ∧ cfg.hasTwilio = true
              ∧ ∃ m, st.smsManager = some m ∧ m.sessionActive = true
                 ∧ m.phoneNumbers ≠ [])) := by
  unfold AIAgent.flushBuffer
  by_cases he : st.transcriptBuffer.isEmpty = true
  · simp only [he, Bool.not_true, Bool.false_eq_true, if_false]
    obtain ⟨hf, hsle, hsme⟩ := flushEnds_spec cfg st nowMs o
    exact ⟨[], (AIAgent.flushEnds cfg st nowMs o).2, by simp, by simp [he], by simp,
      hf, hsle, hsme⟩
  · have hne : st.transcriptBuffer ≠ [] := by
      simpa [List.isEmpty_iff] using he
    simp only [isEmpty_false_of_ne_nil hne, Bool.not_false, if_true]
    obtain ⟨ha, hb, hsl, hsm, rest, htr, hr1, hr2, hr3⟩ :=
      analyzeBatch_shape cfg st nowStr nowMs ar o hne
    obtain ⟨hf, hsle, hsme⟩ :=
      flushEnds_spec cfg (AIAgent.analyzeBatch cfg st nowStr nowMs ar o).1 nowMs o
    refine ⟨(AIAgent.analyzeBatch cfg st nowStr nowMs ar o).2,
      (AIAgent.flushEnds cfg (AIAgent.analyzeBatch cfg st nowStr nowMs ar o).1 nowMs o).2,
      rfl, ?_, ?_, hf, ?_, ?_⟩
    · rw [htr]
      simp [Effect.isAnalyzeCall, isEmpty_false_of_ne_nil hne]
      intro a ha2
      simpa [Effect.isAnalyzeCall] using List.filter_eq_nil_iff.mp hr1 a ha2
    · rw [htr]
      simp [Effect.isEndCall]
      intro a ha2
      simpa [Effect.isEndCall] using List.filter_eq_nil_iff.mp hr2 a ha2
    · exact hsle.trans (and_congr_right fun _ => slackGate_of_map_eq hsl)
    · exact hsme.trans (and_congr_right fun _ => and_congr_right fun _ =>
        smsGate_of_map_eq hsm)

theorem lookup_stopBot_none (cfg : Config) (srv : ServerState) (botId : String)
    (nowMs : Nat) (nowStr : String) (ar : AnalyzeResult) (o : NetOutcomes) :
    lookupSession (stopBot cfg srv botId nowMs nowStr ar o true).1 botId = none := by
  unfold stopBot
  split
  all_goals simp only [if_true]
  all_goals unfold lookupSession
  all_goals rw [Option.map_eq_none']
  all_goals rw [List.find?_eq_none]
  all_goals intro x hx
  all_goals simp only [List.mem_filter] at hx
  all_goals simpa using hx.2

def srvOne : ServerState :=
  startBot cfgZoom { sessions := [] } "b1" "https://zoom.us/j/1" [] 0

def srvStopped : ServerState :=
  (stopBot cfgZoom srvOne "b1" 0 "" AnalyzeResult.noAction allOk true).1

/-- C7 counterexample: after a session is stopped (and hence removed), a
transcript event for it is acknowledged with plain 200 OK and dropped; no
SessionEndedError, nor any error at all, is returned to the caller. -/
theorem ingest_after_stop_counterexample :
    webhookTranscript cfgZoom srvStopped true "b1" "Ann" "p1" true "hello" 0 ""
        AnalyzeResult.noAction allOk
      = (HttpResp.okAck, srvStopped, []) := by
  rfl

/-- C7 amended: stopping a session removes it from the registry, and
ingesting a transcript event for an absent (in particular, stopped) session
leaves every piece of server and batcher state untouched and still returns
200 OK to the webhook caller — the event is dropped with only a logged
warning, and no SessionEndedError exists anywhere in the code. -/
theorem ingest_after_stop_dropped_ok (cfg : Config) (srv : ServerState) (botId : String)
    (nowMs : Nat) (nowStr : String) (ar : AnalyzeResult) (o : NetOutcomes)
    (srv2 : ServerState) (pname pid : String) (isHost : Bool) (text : String)
    (nowMs2 : Nat) (nowStr2 : String) (ar2 : AnalyzeResult) (o2 : NetOutcomes) :
    lookupSession (stopBot cfg srv botId nowMs nowStr ar o true).1 botId = none
  ∧ (lookupSession srv2 botId = none →
      webhookTranscript cfg srv2 true botId pname pid isHost text nowMs2 nowStr2 ar2 o2
        = (HttpResp.okAck, srv2, [])) := by
  refine ⟨lookup_stopBot_none cfg srv botId nowMs nowStr ar o, ?_⟩
  intro h
  unfold webhookTranscript
  simp [h]

theorem ingest_after_stop_dropped_ok_witness :
    webhookTranscript cfgZoom srvStopped true "b1" "Bea" "p2" false "more words" 5 ""
        AnalyzeResult.noAction allOk = (HttpResp.okAck, srvStopped, []) :=
  (ingest_after_stop_dropped_ok cfgZoom srvOne "b1" 0 "" AnalyzeResult.noAction allOk
      srvStopped "Bea" "p2" false "more words" 5 "" AnalyzeResult.noAction allOk).2
    (by decide)

def cfgSlack : Config := { modes := ["SLACK"], hasTwilio := false, slackChannelId := "CH" }

def agentSlackPending : AIAgent :=
  { mkAgent cfgSlack "bot2" "https://zoom.us/j/2" [] 0 with
      interviewerId := some "host1"
      interviewerName := some "Ann"
      transcriptBuffer := ["x"] }

/-- C8 counterexample: dispatching a directive on the Slack channel while no
ThreadHandle exists (`threadTs` is still null because the background thread
creation has not completed or failed) performs neither a `startThread` nor a
reply post — the coaching message is silently dropped, and the whole trace is
just the reasoning call. -/
theorem dispatch_without_thread_counterexample :
    (AIAgent.analyzeBatch cfgSlack agentSlackPending "" 0
        (AnalyzeResult.directive argsP9) allOk).2
      = [Effect.analyzeCall "x"] := by
  rfl

/-- C8 amended: the Slack reply path never creates a thread: with no
`threadTs` the coaching reply is a no-op (no `startThread` attempt, nothing
posted, state unchanged), and no dispatch ever emits a thread-creation
request.  Thread creation is requested only at host resolution, and only
when no handle exists yet and no host was resolved before, so at most one
handle per (session, channel) is ever created while the session is
active. -/
theorem thread_created_once_at_host_resolution (s : SlackThreadManager)
    (cd : CoachingData) (b : Bool) (cfg : Config) (st : AIAgent) (nowStr : String)
    (nowMs : Nat) (ar : AnalyzeResult) (o : NetOutcomes) (name id : String)
    (smsOk : String → Bool) :
    (s.threadTs = none → SlackThreadManager.sendCoachingReply s cd b = (s, []))
  ∧ ((AIAgent.analyzeBatch cfg st nowStr nowMs ar o).2.filter
       (fun a => a.isSlackStartReq) = [])
  ∧ (∀ s2, st.slackThread = some s2 → s2.threadTs.isSome = true →
       (AIAgent.setInterviewer cfg st name id nowMs smsOk).2.filter
         (fun a => a.isSlackStartReq) = [])
  ∧ (st.interviewerId.isSome = true →
       AIAgent.setInterviewer cfg st name id nowMs smsOk = (st, [])) := by
  refine ⟨?_, ?_, ?_, ?_⟩
  · intro h
    unfold SlackThreadManager.sendCoachingReply
    simp [h]
  · by_cases hb : st.transcriptBuffer = []
    · unfold AIAgent.analyzeBatch
      simp [hb]
    · obtain ⟨_, _, _, _, rest, htr, _, _, hr3⟩ :=
        analyzeBatch_shape cfg st nowStr nowMs ar o hb
      rw [htr]
      simp [Effect.isSlackStartReq]
      intro a ha2
      simpa [Effect.isSlackStartReq] using List.filter_eq_nil_iff.mp hr3 a ha2
  · intro s2 hs2 hts
    unfold AIAgent.setInterviewer SMSManager.startSession
    rcases hI : st.interviewerId with _ | iid
    · rcases hsm : st.smsManager with _ | m
      all_goals simp only [hI, hs2, hsm]
      all_goals repeat' split
      all_goals simp_all [Effect.isSlackStartReq, List.filter_eq_nil_iff, List.mem_map]
    · simp [hI]
  · intro h
    obtain ⟨v, hv⟩ := Option.isSome_iff_exists.mp h
    unfold AIAgent.setInterviewer
    simp [hv]

theorem thread_created_once_at_host_resolution_witness :
    SlackThreadManager.sendCoachingReply
        { channelId := "CH", threadTs := none, nudgeCount := 0, sessionStartTime := 0 }
        cdW false
      = ({ channelId := "CH", threadTs := none, nudgeCount := 0, sessionStartTime := 0 }, [])
  ∧ AIAgent.setInterviewer cfgSlack agentSlackPending "Bea" "p2" 0 (fun _ => true)
      = (agentSlackPending, []) :=
  ⟨(thread_created_once_at_host_resolution
      { channelId := "CH", threadTs := none, nudgeCount := 0, sessionStartTime := 0 }
      cdW false cfgSlack agentSlackPending "" 0 AnalyzeResult.noAction allOk "Bea" "p2"
      (fun _ => true)).1 rfl,
   (thread_created_once_at_host_resolution
      { channelId := "CH", threadTs := none, nudgeCount := 0, sessionStartTime := 0 }
      cdW false cfgSlack agentSlackPending "" 0 AnalyzeResult.noAction allOk "Bea" "p2"
      (fun _ => true)).2.2.2 rfl⟩

def cfgSS : Config := { modes := ["SLACK", "SMS"], hasTwilio := true, slackChannelId := "CH" }

/-- A run of host-attributed transcript events for one session, all with
participant id p1, feeding the same per-batch reasoning result. -/
def ingestRun (cfg : Config) (ar : AnalyzeResult) (o : NetOutcomes)
    (st : AIAgent) (evs : List (String × String)) : AIAgent × List Effect :=
  match evs with
  | [] => (st, [])
  | (speaker, text) :: rest =>
      let r := AIAgent.processTranscript cfg st speaker "p1" true text 0 "" ar o
      let r2 := ingestRun cfg ar o r.1 rest
      (r2.1, r.2 ++ r2.2)

def evs6a : List (String × String) :=
  [("Ann", "t1"), ("Ann", "t2"), ("Ann", "t3"), ("Ann", "t4"), ("Ann", "t5"), ("Ann", "t6")]

def evs6b : List (String × String) :=
  [("Ann", "t7"), ("Ann", "t8"), ("Ann", "t9"), ("Ann", "t10"), ("Ann", "t11"), ("Ann", "t12")]

def agentSS0 : AIAgent := mkAgent cfgSS "b" "https://zoom.us/j/3" ["+15550001"] 0

def agentSS1 : AIAgent :=
  (ingestRun cfgSS (AnalyzeResult.directive argsP9) allOk agentSS0 evs6a).1

def agentSS2 : AIAgent := AIAgent.completeSlackStart agentSS1 (some "ts1")

def agentSS3 : AIAgent :=
  (ingestRun cfgSS (AnalyzeResult.directive argsP9) allOk agentSS2 evs6b).1

/-- C10: there is no session-wide nudge counter; each channel adapter keeps
its own.  The Slack counter moves only when a reply is actually attempted
(a thread handle exists), the SMS counter only when the adapter is
configured and its session is active; each end-of-session summary reports
its own adapter counter.  Concretely, in a run where the first directive
arrives before the Slack thread creation completed, the Slack summary
reports 1 nudge while the SMS summary of the same session reports 2. -/
theorem per_channel_nudge_counters (s : SlackThreadManager) (cd : CoachingData)
    (b : Bool) (h0 : Bool) (m : SMSManager) (ok : String → Bool) (nowMs : Nat)
    (ts : String) :
    (s.threadTs = none →
        (SlackThreadManager.sendCoachingReply s cd b).1.nudgeCount = s.nudgeCount)
  ∧ (s.threadTs = some ts →
        (SlackThreadManager.sendCoachingReply s cd b).1.nudgeCount = s.nudgeCount + 1)
  ∧ ((¬ (h0 = true ∧ m.sessionActive = true ∧ m.phoneNumbers ≠ [])) →
        (SMSManager.sendCoachingNudge h0 m cd ok).1.nudgeCount = m.nudgeCount)
  ∧ (h0 = true → m.sessionActive = true → m.phoneNumbers ≠ [] →
        (SMSManager.sendCoachingNudge h0 m cd ok).1.nudgeCount = m.nudgeCount + 1)
  ∧ (s.threadTs = some ts →
        Effect.slackEnd s.channelId ts ((nowMs - s.sessionStartTime) / 60000) s.nudgeCount b
          ∈ (SlackThreadManager.endSessionThread s nowMs b).2)
  ∧ (∀ a ∈ (SMSManager.endSession h0 m nowMs ok).2,
        ∃ n dv, a = Effect.smsEnd n ((nowMs - m.sessionStartTime) / 60000) m.nudgeCount dv)
  ∧ (Effect.slackEnd "CH" "ts1" 0 1 true
        ∈ (AIAgent.flushBuffer cfgSS agentSS3 "" 0 AnalyzeResult.noAction allOk).2
     ∧ Effect.smsEnd "+15550001" 0 2 true
        ∈ (AIAgent.flushBuffer cfgSS agentSS3 "" 0 AnalyzeResult.noAction allOk).2) := by
  refine ⟨?_, ?_, ?_, ?_, ?_, ?_, by decide, by decide⟩
  · intro h
    rw [sendCoachingReply_fst_eq]
    simp [h]
  · intro h
    rw [sendCoachingReply_fst_eq]
    simp [h]
  · intro hnot
    rw [sendCoachingNudge_fst_eq]
    by_cases h0t : h0 = true
    · by_cases hA : m.sessionActive = true
      · by_cases hN : m.phoneNumbers = []
        · simp [hN]
        · exact absurd ⟨h0t, hA, hN⟩ hnot
      · have hA2 : m.sessionActive = false := by simpa using hA
        simp [hA2]
    · have h02 : h0 = false := by simpa using h0t
      simp [h02]
  · intro h0t hA hN
    rw [sendCoachingNudge_fst_eq]
    simp [h0t, hA, isEmpty_false_of_ne_nil hN]
  · intro h
    exact endSessionThread_mem s nowMs b ts h
  · intro a ha
    obtain ⟨n, hn, rfl⟩ := mem_endSession ha
    exact ⟨n, ok n, rfl⟩

theorem per_channel_nudge_counters_witness :
    (SlackThreadManager.sendCoachingReply
        { channelId := "CH", threadTs := none, nudgeCount := 0, sessionStartTime := 0 }
        cdW true).1.nudgeCount = 0
  ∧ (SMSManager.sendCoachingNudge true smsOne cdW (fun _ => true)).1.nudgeCount
      = smsOne.nudgeCount + 1 :=
  ⟨(per_channel_nudge_counters
      { channelId := "CH", threadTs := none, nudgeCount := 0, sessionStartTime := 0 }
      cdW true true smsOne (fun _ => true) 0 "t").1 rfl,
   (per_channel_nudge_counters
      { channelId := "CH", threadTs := none, nudgeCount := 0, sessionStartTime := 0 }
      cdW true true smsOne (fun _ => true) 0 "t").2.2.2.1 rfl rfl (by decide)⟩

/-- C3 counterexample: the serialization claim fails.  From the initial
session state, a schedule in which twelve transcript events are ingested
while neither reasoning call has resolved is reachable (nothing in the code
blocks ingestion or the second call on an in-flight first call), and it ends
with two analyze calls concurrently in flight. -/
theorem analyze_serialization_counterexample :
    ∃ s, ReachableConc concInit s ∧ s.inFlight = 2 :=
  ⟨runIngests concInit
      ["e1", "e2", "e3", "e4", "e5", "e6", "e7", "e8", "e9", "e10", "e11", "e12"],
   reachable_runIngests concInit _, by decide⟩

/-- C3 amended: the buffer drain and call start are one atomic turn, so each
reasoning call receives a distinct batch, but the calls themselves are not
serialized: whenever an ingested event makes the buffer reach the window
size, a new analyze call starts and the in-flight count rises by one
regardless of how many calls are already outstanding, and the buffer is
drained in the same turn. -/
theorem analyze_calls_unserialized (s : ConcState) (e : String) :
    ((ingestTurn s e).inFlight
        = if 6 ≤ s.buffer.length + 1 then s.inFlight + 1 else s.inFlight)
  ∧ (6 ≤ s.buffer.length + 1 → (ingestTurn s e).buffer = []) := by
  unfold ingestTurn
  simp only [List.length_append, List.length_cons, List.length_nil]
  by_cases h : 6 ≤ s.buffer.length + 1
  · simp [h]
  · simp [h]

theorem analyze_calls_unserialized_witness :
    (ingestTurn { buffer := ["a", "b", "c", "d", "e"], batchCount := 0, inFlight := 1 }
        "f").inFlight = 2
  ∧ (ingestTurn { buffer := ["a", "b", "c", "d", "e"], batchCount := 0, inFlight := 1 }
        "f").buffer = [] := by
  refine ⟨?_,
    (analyze_calls_unserialized
      { buffer := ["a", "b", "c", "d", "e"], batchCount := 0, inFlight := 1 } "f").2
      (by decide)⟩
  have h := (analyze_calls_unserialized
    { buffer := ["a", "b", "c", "d", "e"], batchCount := 0, inFlight := 1 } "f").1
  simpa using h
